import Mathlib

/-!
Verification of the `kover` scene parser/validator (kover.c).

The C program reads a textual scene (buildings and antennas on an integer
grid) from stdin, validates it, and answers one query (bounding box,
summary, description).  This file is a shallow embedding of the core of
`kover.c`:

* C strings are `List Char` (the characters before the terminating NUL);
* machine `int`s are `Int` (overflow never matters for the properties
  proved here; where the C initial values `INT_MAX` / `INT_MIN` of the
  bounding-box fold matter, they appear explicitly);
* `sscanf` with `%10s` fields is modelled by an explicit tokenizer that
  skips blanks and reads at most 10 non-blank characters per field;
* functions that print to stderr and return `false` return
  `Except String _`, the error carrying the exact message printed;
* `read_scene` returns `Except (List String) Scene`, the error carrying
  the list of messages written to stderr (the empty list when the C code
  returns `false` without printing);
* `qsort` over the id array in `print_description` is modelled by
  `List.insertionSort` with the `strcmp`-order on identifiers (any
  comparison sort agrees with it up to the order of equal keys, and the
  ids of a validated scene are pairwise distinct).
-/

namespace Kover

/-- `is_blank` from kover.c: space or tab. -/
def is_blank (c : Char) : Bool :=
  c == ' ' || c == '\t'

/-- `is_valid_id_char` from kover.c. -/
def is_valid_id_char (c : Char) (first : Bool) : Bool :=
  if first then c.isAlpha || c == '_' else c.isAlphanum || c == '_'

/-- `is_valid_id` from kover.c. -/
def is_valid_id : List Char → Bool
  | [] => false
  | c :: rest => is_valid_id_char c true && rest.all (fun d => is_valid_id_char d false)

/-- `is_valid_integer` from kover.c: the initial test `str[0] == '0' && str[1]`
looks only at position 0; then an optional leading `-` (which must be followed
by something), and all characters from `start` on must be digits. -/
def is_valid_integer (s : List Char) : Bool :=
  match s with
  | [] => false
  | c0 :: rest =>
    if c0 == '0' && !rest.isEmpty then false
    else if c0 == '-' then !rest.isEmpty && rest.all Char.isDigit
    else (c0 :: rest).all Char.isDigit

/-- `is_valid_positive_integer` from kover.c. -/
def is_valid_positive_integer (s : List Char) : Bool :=
  match s with
  | [] => false
  | c0 :: rest =>
    if c0 == '-' || c0 == '0' then false
    else (c0 :: rest).all Char.isDigit

/-- The `Building` struct of kover.c. -/
structure Building where
  id : String
  x : Int
  y : Int
  w : Int
  h : Int
  deriving DecidableEq, Repr

/-- The `Antenna` struct of kover.c. -/
structure Antenna where
  id : String
  x : Int
  y : Int
  r : Int
  deriving DecidableEq, Repr

/-- The `Scene` struct of kover.c (fixed-capacity arrays become lists). -/
structure Scene where
  buildings : List Building
  antennas : List Antenna
  deriving DecidableEq, Repr

/-- `init_scene` from kover.c. -/
def emptyScene : Scene := ⟨[], []⟩

/-- `buildings_overlap` from kover.c. -/
def buildings_overlap (b1 b2 : Building) : Bool :=
  !(decide (b1.x + b1.w ≤ b2.x - b2.w) || decide (b1.x - b1.w ≥ b2.x + b2.w) ||
    decide (b1.y + b1.h ≤ b2.y - b2.h) || decide (b1.y - b1.h ≥ b2.y + b2.h))

/-- `is_duplicate_building_id` from kover.c. -/
def is_duplicate_building_id (s : Scene) (id : String) : Bool :=
  s.buildings.any (fun b => b.id == id)

/-- `is_duplicate_antenna_id` from kover.c. -/
def is_duplicate_antenna_id (s : Scene) (id : String) : Bool :=
  s.antennas.any (fun a => a.id == id)

/-- `has_same_position` from kover.c. -/
def has_same_position (a1 a2 : Antenna) : Bool :=
  a1.x == a2.x && a1.y == a2.y

/-- `check_antenna_positions` from kover.c: the nested loop
`for i; for j > i` returning the first colliding pair `(id of i, id of j)`
in scan order. -/
def check_antenna_positions : List Antenna → Option (String × String)
  | [] => none
  | a :: rest =>
    match rest.find? (fun b => has_same_position a b) with
    | some b => some (a.id, b.id)
    | none => check_antenna_positions rest

/-- The two failures of `process_antenna` after a successful parse. -/
inductive AntennaErr where
  | duplicateId (id : String)
  | samePosition (id1 id2 : String)
  deriving DecidableEq, Repr

/-- The post-parse body of `process_antenna` from kover.c: duplicate-id check
against the existing antennas, then append, then `check_antenna_positions`
on the grown collection. -/
def add_antenna (s : Scene) (a : Antenna) : Except AntennaErr Scene :=
  if is_duplicate_antenna_id s a.id then .error (.duplicateId a.id)
  else
    let ants := s.antennas ++ [a]
    match check_antenna_positions ants with
    | some p => .error (.samePosition p.1 p.2)
    | none => .ok { s with antennas := ants }

/-! ### The `sscanf` tokenizer

`sscanf(line, " building %10s %10s %10s %10s %10s ", ...)` skips blanks,
matches the literal keyword character by character, then for each `%10s`
skips blanks and reads at most 10 non-blank characters (a field fails only
when no character at all is available).  The return value is the number of
fields assigned; characters left over after the last field are ignored. -/

/-- One `%10s` conversion: skip blanks, read `min 10 k` characters where `k`
is the length of the following non-blank run; fails iff that run is empty. -/
def readField (cs : List Char) : Option (List Char × List Char) :=
  let rest := cs.dropWhile is_blank
  let tok := (rest.takeWhile (fun c => !is_blank c)).take 10
  if tok.isEmpty then none else some (tok, rest.drop tok.length)

/-- `n` successive `%10s` conversions; stops early when a field fails.
Returns the fields read and the unconsumed remainder. -/
def readFields : Nat → List Char → List (List Char) × List Char
  | 0, cs => ([], cs)
  | n + 1, cs =>
    match readField cs with
    | none => ([], cs)
    | some (t, rest) =>
      let p := readFields n rest
      (t :: p.1, p.2)

/-- Literal characters in an `sscanf` format: each must match exactly. -/
def matchLiteral : List Char → List Char → Option (List Char)
  | [], cs => some cs
  | _ :: _, [] => none
  | k :: ks, c :: cs => if k == c then matchLiteral ks cs else none

/-- A leading `" kw"` of an `sscanf` format: skip blanks, match `kw`. -/
def matchKeyword (kw : List Char) (cs : List Char) : Option (List Char) :=
  matchLiteral kw (cs.dropWhile is_blank)

/-- Decimal value of a digit run (used by `atoi` below). -/
def digitsVal (ds : List Char) : Nat :=
  ds.foldl (fun acc c => 10 * acc + (c.toNat - 48)) 0

/-- `atoi` as kover.c uses it (on tokens with no leading blanks): optional
`-`, then the leading digit run. -/
def atoi (cs : List Char) : Int :=
  match cs with
  | '-' :: rest => -(digitsVal (rest.takeWhile Char.isDigit) : Int)
  | _ => (digitsVal (cs.takeWhile Char.isDigit) : Int)

/-- The `" (line #%d)"` suffix of the diagnostics. -/
def lineTag (ln : Nat) : String :=
  " (line #" ++ toString ln ++ ")"

/-- `parse_building_line` from kover.c.  The `sscanf` returns 5 exactly when
five fields are assigned; a sixth token on the line is simply left
unconsumed.  Validation order: id, x, y, w, h, stopping at the first
failure, each failure printing the message the C code prints. -/
def parse_building_line (line : List Char) (ln : Nat) : Except String Building :=
  match matchKeyword "building".data line with
  | none => .error ("error: building line has wrong number of arguments" ++ lineTag ln)
  | some rest =>
    match (readFields 5 rest).1 with
    | [idT, xT, yT, wT, hT] =>
      if !is_valid_id idT then
        .error ("error: invalid identifier \"" ++ String.mk idT ++ "\"" ++ lineTag ln)
      else if !is_valid_integer xT then
        .error ("error: invalid integer \"" ++ String.mk xT ++ "\"" ++ lineTag ln)
      else if !is_valid_integer yT then
        .error ("error: invalid integer \"" ++ String.mk yT ++ "\"" ++ lineTag ln)
      else if !is_valid_positive_integer wT then
        .error ("error: invalid positive integer \"" ++ String.mk wT ++ "\"" ++ lineTag ln)
      else if !is_valid_positive_integer hT then
        .error ("error: invalid positive integer \"" ++ String.mk hT ++ "\"" ++ lineTag ln)
      else .ok ⟨String.mk idT, atoi xT, atoi yT, atoi wT, atoi hT⟩
    | _ => .error ("error: building line has wrong number of arguments" ++ lineTag ln)

/-- `parse_antenna_line` from kover.c (4 fields). -/
def parse_antenna_line (line : List Char) (ln : Nat) : Except String Antenna :=
  match matchKeyword "antenna".data line with
  | none => .error ("error: antenna line has wrong number of arguments" ++ lineTag ln)
  | some rest =>
    match (readFields 4 rest).1 with
    | [idT, xT, yT, rT] =>
      if !is_valid_id idT then
        .error ("error: invalid identifier \"" ++ String.mk idT ++ "\"" ++ lineTag ln)
      else if !is_valid_integer xT then
        .error ("error: invalid integer \"" ++ String.mk xT ++ "\"" ++ lineTag ln)
      else if !is_valid_integer yT then
        .error ("error: invalid integer \"" ++ String.mk yT ++ "\"" ++ lineTag ln)
      else if !is_valid_positive_integer rT then
        .error ("error: invalid positive integer \"" ++ String.mk rT ++ "\"" ++ lineTag ln)
      else .ok ⟨String.mk idT, atoi xT, atoi yT, atoi rT⟩
    | _ => .error ("error: antenna line has wrong number of arguments" ++ lineTag ln)

/-- `process_building` from kover.c. -/
def process_building (s : Scene) (line : List Char) (ln : Nat) : Except String Scene :=
  match parse_building_line line ln with
  | .error e => .error e
  | .ok b =>
    if is_duplicate_building_id s b.id then
      .error ("error: building identifier " ++ b.id ++ " is non unique")
    else
      match s.buildings.find? (fun ex => buildings_overlap ex b) with
      | some ex => .error ("error: buildings " ++ ex.id ++ " and " ++ b.id ++ " are overlapping")
      | none => .ok { s with buildings := s.buildings ++ [b] }

/-- `process_antenna` from kover.c, rendering `add_antenna`'s failures as the
messages the C code prints. -/
def process_antenna (s : Scene) (line : List Char) (ln : Nat) : Except String Scene :=
  match parse_antenna_line line ln with
  | .error e => .error e
  | .ok a =>
    match add_antenna s a with
    | .error (.duplicateId i) => .error ("error: antenna identifier " ++ i ++ " is non unique")
    | .error (.samePosition i1 i2) =>
      .error ("error: antennas " ++ i1 ++ " and " ++ i2 ++ " have the same position")
    | .ok s1 => .ok s1

/-- `process_line` from kover.c: read the first token (at most 10 characters)
and dispatch on it. -/
def process_line (s : Scene) (line : String) (ln : Nat) : Except String Scene :=
  match readField line.data with
  | none => .error ("error: unrecognized line" ++ lineTag ln)
  | some (t, _) =>
    if t == "building".data then process_building s line.data ln
    else if t == "antenna".data then process_antenna s line.data ln
    else .error ("error: unrecognized line" ++ lineTag ln)

/-- The `while (fgets(...))` loop of `read_scene`: `n` is the number of the
last line already consumed, so the current line is number `n + 1`. -/
def read_scene_loop : List String → Nat → Scene → Except (List String) Scene
  | [], _, _ => .error ["error: last line must be exactly 'end scene'"]
  | l :: ls, n, s =>
    if l == "end scene" then .ok s
    else
      match process_line s l (n + 1) with
      | .ok s1 => read_scene_loop ls (n + 1) s1
      | .error e => .error [e]

/-- `read_scene` from kover.c on a stream of newline-stripped lines.  The
error value is the list of messages printed to stderr; when the very first
`fgets` fails (empty stream) the C code returns `false` without printing,
so the error list is empty. -/
def read_scene (lines : List String) : Except (List String) Scene :=
  match lines with
  | [] => .error []
  | first :: rest =>
    if first == "begin scene" then read_scene_loop rest 1 emptyScene
    else .error ["error: first line must be exactly 'begin scene'"]

/-! ### Queries -/

/-- The four accumulators of `compute_bounding_box`. -/
structure BBox where
  min_x : Int
  max_x : Int
  min_y : Int
  max_y : Int
  deriving DecidableEq, Repr

/-- `INT_MAX` of the 32-bit C `int`. -/
def INT_MAX : Int := 2147483647

/-- `INT_MIN` of the 32-bit C `int`. -/
def INT_MIN : Int := -2147483648

/-- One body of the bounding-box loops: the four `if` updates. -/
def bb_update (m : BBox) (xl xr yl yr : Int) : BBox :=
  { min_x := if xl < m.min_x then xl else m.min_x
    max_x := if xr > m.max_x then xr else m.max_x
    min_y := if yl < m.min_y then yl else m.min_y
    max_y := if yr > m.max_y then yr else m.max_y }

/-- `compute_bounding_box` from kover.c: accumulators start at
`INT_MAX`/`INT_MIN`, then one pass over the buildings, one over the
antennas. -/
def compute_bounding_box (s : Scene) : BBox :=
  let m0 : BBox := ⟨INT_MAX, INT_MIN, INT_MAX, INT_MIN⟩
  let m1 := s.buildings.foldl
    (fun m b => bb_update m (b.x - b.w) (b.x + b.w) (b.y - b.h) (b.y + b.h)) m0
  s.antennas.foldl
    (fun m a => bb_update m (a.x - a.r) (a.x + a.r) (a.y - a.r) (a.y + a.r)) m1

/-- `print_bounding_box` from kover.c (the line written to stdout). -/
def print_bounding_box (s : Scene) : String :=
  if s.buildings.length == 0 && s.antennas.length == 0 then "undefined (empty scene)"
  else
    let m := compute_bounding_box s
    "bounding box [" ++ toString m.min_x ++ ", " ++ toString m.max_x ++ "] x [" ++
      toString m.min_y ++ ", " ++ toString m.max_y ++ "]"

/-- `print_summary` from kover.c (the line written to stdout). -/
def print_summary (s : Scene) : String :=
  let nb := s.buildings.length
  let na := s.antennas.length
  if nb == 0 && na == 0 then "An empty scene"
  else
    "A scene with " ++
      (if nb > 0 then
        toString nb ++ " building" ++ (if nb > 1 then "s" else "") ++
          (if na > 0 then " and " else "")
      else "") ++
      (if na > 0 then toString na ++ " antenna" ++ (if na > 1 then "s" else "") else "")

/-- `print_building` from kover.c. -/
def print_building (b : Building) : String :=
  "  building " ++ b.id ++ " at " ++ toString b.x ++ " " ++ toString b.y ++
    " with dimensions " ++ toString b.w ++ " " ++ toString b.h

/-- `print_antenna` from kover.c. -/
def print_antenna (a : Antenna) : String :=
  "  antenna " ++ a.id ++ " at " ++ toString a.x ++ " " ++ toString a.y ++
    " with range " ++ toString a.r

/-- `strcmp(a, b) <= 0` on C strings: byte-wise lexicographic comparison
(identifiers accepted by the parser are ASCII, where bytes and code points
agree). -/
def strLe : List Char → List Char → Bool
  | [], _ => true
  | _ :: _, [] => false
  | a :: as1, b :: bs1 =>
    if a.toNat < b.toNat then true
    else if b.toNat < a.toNat then false
    else strLe as1 bs1

/-- The order `compare_ids` induces on identifiers. -/
def idLe (a b : String) : Prop := strLe a.data b.data = true

instance : DecidableRel idLe := fun a b => Bool.decEq (strLe a.data b.data) true

/-- The sorted-output scheme of `print_description`: sort the list of ids
(`qsort` with `compare_ids`, modelled by `insertionSort` with the same
order), then emit, for each sorted id, the first stored record carrying it. -/
def sortByKey {α : Type} (key : α → String) (xs : List α) : List α :=
  ((xs.map key).insertionSort idLe).filterMap
    (fun i => xs.find? (fun x => key x == i))

/-- `print_description` from kover.c: the lines written to stdout. -/
def print_description (s : Scene) : List String :=
  print_summary s ::
    ((sortByKey Building.id s.buildings).map print_building ++
      (sortByKey Antenna.id s.antennas).map print_antenna)

/-! ### Extent lists (the spec's reading of the bounding box) -/

/-- Left x-extents of every building and antenna. -/
def xlefts (s : Scene) : List Int :=
  s.buildings.map (fun b => b.x - b.w) ++ s.antennas.map (fun a => a.x - a.r)

/-- Right x-extents of every building and antenna. -/
def xrights (s : Scene) : List Int :=
  s.buildings.map (fun b => b.x + b.w) ++ s.antennas.map (fun a => a.x + a.r)

/-- Low y-extents of every building and antenna. -/
def ylows (s : Scene) : List Int :=
  s.buildings.map (fun b => b.y - b.h) ++ s.antennas.map (fun a => a.y - a.r)

/-- High y-extents of every building and antenna. -/
def yhighs (s : Scene) : List Int :=
  s.buildings.map (fun b => b.y + b.h) ++ s.antennas.map (fun a => a.y + a.r)

/-! ## C1: the integer validator -/

/-- C1, counterexample: the claim says the validator rejects `"-0"` (and
`"-01"`), but `is_valid_integer` accepts both — the leading-zero test of
kover.c reads `str[0] == '0' && str[1]` and looks only at position 0, so a
zero right after the sign is never examined. -/
theorem is_valid_integer_accepts_minus_zero :
    is_valid_integer "-0".data = true ∧ is_valid_integer "-01".data = true := by
  decide

/-- C1, amended: `is_valid_integer` accepts `s` iff `s` is non-empty and
either starts with `'-'` followed by a non-empty run of ASCII digits
(leading zeros after the sign allowed, so `"-0"` and `"-01"` are accepted),
or consists only of ASCII digits with the restriction that a string whose
first character is `'0'` must be exactly `"0"` (so `"00"` and `"01"` are
rejected); a bare `"-"` is rejected. -/
theorem is_valid_integer_spec (s : List Char) :
    is_valid_integer s = true ↔
      ∃ c rest, s = c :: rest ∧
        ((c = '-' ∧ rest ≠ [] ∧ ∀ d ∈ rest, d.isDigit = true) ∨
         (c ≠ '-' ∧ (c = '0' → rest = []) ∧ ∀ d ∈ c :: rest, d.isDigit = true)) := by
  cases s with
  | nil => simp [is_valid_integer]
  | cons c rest =>
    simp only [is_valid_integer]
    by_cases h0 : c = '0'
    · subst h0
      cases rest with
      | nil =>
        simp only [List.isEmpty_nil, Bool.not_true, Bool.and_false,
          if_neg Bool.false_ne_true, show (('0' : Char) == '-') = false from rfl,
          if_neg Bool.false_ne_true, List.all_cons, List.all_nil, Bool.and_true,
          show ('0' : Char).isDigit = true from rfl, true_iff]
        exact ⟨'0', [], rfl, Or.inr ⟨by decide, fun _ => rfl, by decide⟩⟩
      | cons d ds =>
        simp only [List.isEmpty_cons, Bool.not_false, Bool.and_true, beq_self_eq_true,
          if_pos, if_true]
        constructor
        · intro h; cases h
        · rintro ⟨c', rest', heq, h | h⟩
          · obtain ⟨hc, -, -⟩ := h
            cases heq; cases hc
          · obtain ⟨-, hz, -⟩ := h
            cases heq
            exact absurd (hz rfl) (by simp)
    · by_cases hm : c = '-'
      · subst hm
        simp only [show (('-' : Char) == '0') = false from rfl, Bool.false_and,
          if_neg Bool.false_ne_true, beq_self_eq_true, if_true, Bool.and_eq_true,
          Bool.not_eq_true', List.isEmpty_eq_false, List.all_eq_true]
        constructor
        · rintro ⟨hne, hall⟩
          exact ⟨'-', rest, rfl, Or.inl ⟨rfl, hne, hall⟩⟩
        · rintro ⟨c', rest', heq, h | h⟩
          · obtain ⟨-, hne, hall⟩ := h
            cases heq; exact ⟨hne, hall⟩
          · obtain ⟨hc, -, -⟩ := h
            cases heq; exact absurd rfl hc
      · simp only [show (c == '0') = false from beq_eq_false_iff_ne.2 h0, Bool.false_and,
          if_neg Bool.false_ne_true, show (c == '-') = false from beq_eq_false_iff_ne.2 hm,
          if_neg Bool.false_ne_true, List.all_eq_true]
        constructor
        · intro hall
          exact ⟨c, rest, rfl, Or.inr ⟨hm, fun hc => absurd hc h0, hall⟩⟩
        · rintro ⟨c', rest', heq, h | h⟩
          · obtain ⟨hc, -, -⟩ := h
            cases heq; exact absurd hc hm
          · obtain ⟨-, -, hall⟩ := h
            cases heq; exact hall

/-! ## C2: token count after the keyword -/

/-- C2: the line `building b1 0 0 1 1 extra` has 6 tokens after the keyword,
yet `process_line` accepts it and stores the building — `sscanf` assigns the
first five `%10s` fields, returns 5, and the trailing token is silently
ignored, so the `!= 5` test never fires for extra tokens. -/
theorem extra_token_building_line_accepted :
    process_line emptyScene "building b1 0 0 1 1 extra" 2 =
      .ok ⟨[⟨"b1", 0, 0, 1, 1⟩], []⟩ := by
  rfl

/-! ## C3 and C9: the overlap predicate -/

/-- C3: for buildings with strictly positive half-dimensions,
`buildings_overlap` returns `false` exactly when one rectangle is entirely
to the left of, right of, below or above the other (closed comparison, so
edge-touching counts as non-overlap), and `true` exactly when that
disjunction fails; in particular two rectangles sharing only a boundary
edge are not overlapping. -/
theorem buildings_overlap_iff (b1 b2 : Building)
    (hw1 : 0 < b1.w) (hh1 : 0 < b1.h) (hw2 : 0 < b2.w) (hh2 : 0 < b2.h) :
    (buildings_overlap b1 b2 = false ↔
      (b1.x + b1.w ≤ b2.x - b2.w ∨ b1.x - b1.w ≥ b2.x + b2.w ∨
       b1.y + b1.h ≤ b2.y - b2.h ∨ b1.y - b1.h ≥ b2.y + b2.h)) ∧
    (buildings_overlap b1 b2 = true ↔
      ¬(b1.x + b1.w ≤ b2.x - b2.w ∨ b1.x - b1.w ≥ b2.x + b2.w ∨
        b1.y + b1.h ≤ b2.y - b2.h ∨ b1.y - b1.h ≥ b2.y + b2.h)) ∧
    (b1.x + b1.w = b2.x - b2.w → buildings_overlap b1 b2 = false) := by
  have key : buildings_overlap b1 b2 = false ↔
      (b1.x + b1.w ≤ b2.x - b2.w ∨ b1.x - b1.w ≥ b2.x + b2.w ∨
       b1.y + b1.h ≤ b2.y - b2.h ∨ b1.y - b1.h ≥ b2.y + b2.h) := by
    unfold buildings_overlap
    simp only [Bool.not_eq_false', Bool.or_eq_true, decide_eq_true_eq]
    tauto
  refine ⟨key, ?_, fun h => key.mpr (Or.inl (le_of_eq h))⟩
  rw [← key]
  simp

/-- Witness for C3: two edge-adjacent unit-square buildings. -/
theorem buildings_overlap_iff_witness :
    (buildings_overlap ⟨"a", 0, 0, 1, 1⟩ ⟨"b", 2, 0, 1, 1⟩ = false ↔
      ((0 : Int) + 1 ≤ 2 - 1 ∨ (0 : Int) - 1 ≥ 2 + 1 ∨
       (0 : Int) + 1 ≤ 0 - 1 ∨ (0 : Int) - 1 ≥ 0 + 1)) ∧
    (buildings_overlap ⟨"a", 0, 0, 1, 1⟩ ⟨"b", 2, 0, 1, 1⟩ = true ↔
      ¬((0 : Int) + 1 ≤ 2 - 1 ∨ (0 : Int) - 1 ≥ 2 + 1 ∨
        (0 : Int) + 1 ≤ 0 - 1 ∨ (0 : Int) - 1 ≥ 0 + 1)) ∧
    ((0 : Int) + 1 = 2 - 1 → buildings_overlap ⟨"a", 0, 0, 1, 1⟩ ⟨"b", 2, 0, 1, 1⟩ = false) :=
  buildings_overlap_iff ⟨"a", 0, 0, 1, 1⟩ ⟨"b", 2, 0, 1, 1⟩
    (by decide) (by decide) (by decide) (by decide)

/-! ## C10: the `%10s` field-length invariant -/

theorem readField_length_le {cs t rest : List Char}
    (h : readField cs = some (t, rest)) : t.length ≤ 10 := by
  simp only [readField] at h
  split at h
  · cases h
  · cases h
    exact List.length_take_le 10 _

theorem readFields_length_le : ∀ (n : Nat) (cs : List Char),
    ∀ t ∈ (readFields n cs).1, t.length ≤ 10 := by
  intro n
  induction n with
  | zero => intro cs t ht; simp [readFields] at ht
  | succ m ih =>
    intro cs t ht
    simp only [readFields] at ht
    cases hr : readField cs with
    | none => rw [hr] at ht; simp at ht
    | some p =>
      rw [hr] at ht
      simp only [List.mem_cons] at ht
      rcases ht with rfl | ht
      · exact readField_length_le (by rw [hr])
      · exact ih p.2 t ht

theorem takeWhile_append_of_all {α : Type} (p : α → Bool) :
    ∀ (l1 l2 : List α), (∀ c ∈ l1, p c = true) →
      (l1 ++ l2).takeWhile p = l1 ++ l2.takeWhile p := by
  intro l1
  induction l1 with
  | nil => intro l2 _; simp
  | cons c t ih =>
    intro l2 hall
    have hc : p c = true := hall c (by simp)
    simp [List.takeWhile_cons, hc, ih l2 (fun d hd => hall d (by simp [hd]))]

theorem readField_splits (tok post : List Char)
    (hnb : ∀ c ∈ tok, is_blank c = false) (hlen : 11 ≤ tok.length) :
    readField (tok ++ post) = some (tok.take 10, tok.drop 10 ++ post) := by
  cases tok with
  | nil => simp at hlen
  | cons c t =>
    have hc : is_blank c = false := hnb c (by simp)
    have hdrop : ((c :: t) ++ post).dropWhile is_blank = (c :: t) ++ post := by
      simp [List.dropWhile_cons, hc]
    have htake : ((c :: t) ++ post).takeWhile (fun x => !is_blank x) =
        (c :: t) ++ post.takeWhile (fun x => !is_blank x) := by
      exact takeWhile_append_of_all _ (c :: t) post (fun d hd => by simp [hnb d hd])
    have hlen10 : 10 ≤ (c :: t).length := by
      simp only [List.length_cons] at hlen ⊢; omega
    have hA : ((c :: t) ++ post.takeWhile (fun x => !is_blank x)).take 10 =
        (c :: t).take 10 := List.take_append_of_le_length hlen10
    have hne : (((c :: t).take 10).isEmpty = false) := by
      simp [List.take_succ_cons]
    have hlenA : ((c :: t).take 10).length = 10 := by
      simp only [List.length_take]
      omega
    have hdrop10 : ((c :: t) ++ post).drop 10 = (c :: t).drop 10 ++ post :=
      List.drop_append_of_le_length hlen10
    simp only [readField, hdrop, htake, hA, hne, hlenA, hdrop10]
    simp

theorem parse_building_line_id_length {line : List Char} {ln : Nat} {b : Building}
    (h : parse_building_line line ln = .ok b) : b.id.length ≤ 10 := by
  unfold parse_building_line at h
  cases hk : matchKeyword "building".data line with
  | none => rw [hk] at h; cases h
  | some rest =>
    rw [hk] at h
    dsimp only [] at h
    rcases hfs : (readFields 5 rest).1 with
      _ | ⟨t1, _ | ⟨t2, _ | ⟨t3, _ | ⟨t4, _ | ⟨t5, _ | ⟨t6, rest6⟩⟩⟩⟩⟩⟩ <;>
      rw [hfs] at h <;> dsimp at h
    case cons.cons.cons.cons.cons.nil =>
      split_ifs at h
      cases h
      have ht1 : t1 ∈ (readFields 5 rest).1 := by rw [hfs]; simp
      exact readFields_length_le 5 rest t1 ht1
    all_goals cases h

theorem parse_antenna_line_id_length {line : List Char} {ln : Nat} {a : Antenna}
    (h : parse_antenna_line line ln = .ok a) : a.id.length ≤ 10 := by
  unfold parse_antenna_line at h
  cases hk : matchKeyword "antenna".data line with
  | none => rw [hk] at h; cases h
  | some rest =>
    rw [hk] at h
    dsimp only [] at h
    rcases hfs : (readFields 4 rest).1 with
      _ | ⟨t1, _ | ⟨t2, _ | ⟨t3, _ | ⟨t4, _ | ⟨t5, rest5⟩⟩⟩⟩⟩ <;>
      rw [hfs] at h <;> dsimp at h
    case cons.cons.cons.cons.nil =>
      split_ifs at h
      cases h
      have ht1 : t1 ∈ (readFields 4 rest).1 := by rw [hfs]; simp
      exact readFields_length_le 4 rest t1 ht1
    all_goals cases h

/-- C10: the tokenizer reads at most 10 characters per `%10s` field, so
every field `readFields` produces has length at most 10, the identifier
stored by an accepting `parse_building_line` / `parse_antenna_line` has at
most 10 characters (every numeric token consumed is likewise a field of
length at most 10), and a raw non-blank run of 11 or more characters is
split: `readField` returns its 10-character prefix and leaves the remainder
to be consumed as the next field. -/
theorem field_length_invariant :
    (∀ (cs t rest : List Char), readField cs = some (t, rest) → t.length ≤ 10) ∧
    (∀ (n : Nat) (cs : List Char), ∀ t ∈ (readFields n cs).1, t.length ≤ 10) ∧
    (∀ (line : List Char) (ln : Nat) (b : Building),
      parse_building_line line ln = .ok b → b.id.length ≤ 10) ∧
    (∀ (line : List Char) (ln : Nat) (a : Antenna),
      parse_antenna_line line ln = .ok a → a.id.length ≤ 10) ∧
    (∀ (tok post : List Char), (∀ c ∈ tok, is_blank c = false) → 11 ≤ tok.length →
      readField (tok ++ post) = some (tok.take 10, tok.drop 10 ++ post)) :=
  ⟨fun _ _ _ h => readField_length_le h,
   readFields_length_le,
   fun _ _ _ h => parse_building_line_id_length h,
   fun _ _ _ h => parse_antenna_line_id_length h,
   readField_splits⟩

/-! ## C8: adding an antenna -/

theorem has_same_position_iff (p q : Antenna) :
    has_same_position p q = true ↔ (p.x = q.x ∧ p.y = q.y) := by
  simp [has_same_position]

theorem find?_first_index {α : Type} (p : α → Bool) :
    ∀ (l : List α) (b : α), l.find? p = some b →
      ∃ k, ∃ hk : k < l.length, l.get ⟨k, hk⟩ = b ∧ p b = true ∧
        ∀ m (hm : m < l.length), m < k → p (l.get ⟨m, hm⟩) = false := by
  intro l
  induction l with
  | nil => intro b h; cases h
  | cons a t ih =>
    intro b h
    by_cases hp : p a = true
    · rw [List.find?_cons_of_pos t hp] at h
      cases h
      exact ⟨0, by simp, rfl, hp, fun m hm hlt => by omega⟩
    · rw [List.find?_cons_of_neg t hp] at h
      obtain ⟨k, hk, hget, hb, hmin⟩ := ih b h
      have hk1 : k + 1 < (a :: t).length := by simp; omega
      refine ⟨k + 1, hk1, ?_, hb, ?_⟩
      · show t.get ⟨k, hk⟩ = b
        exact hget
      · intro m hm hlt
        cases m with
        | zero =>
          show p a = false
          simpa using hp
        | succ m1 =>
          have hm1 : m1 < t.length := by simp at hm; omega
          show p (t.get ⟨m1, hm1⟩) = false
          exact hmin m1 hm1 (by omega)

theorem check_antenna_positions_none_iff :
    ∀ l : List Antenna, check_antenna_positions l = none ↔
      l.Pairwise (fun p q => has_same_position p q = false) := by
  intro l
  induction l with
  | nil => simp [check_antenna_positions]
  | cons a t ih =>
    simp only [check_antenna_positions]
    cases hf : t.find? (fun b => has_same_position a b) with
    | some b =>
      constructor
      · intro h; cases h
      · intro hp
        rw [List.pairwise_cons] at hp
        have hb := List.find?_some hf
        have hmem := List.mem_of_find?_eq_some hf
        rw [hp.1 b hmem] at hb
        cases hb
    | none =>
      rw [List.pairwise_cons]
      have hall := List.find?_eq_none.mp hf
      constructor
      · intro h
        exact ⟨fun b hb => by simpa using hall b hb, ih.mp h⟩
      · rintro ⟨-, h2⟩
        exact ih.mpr h2

theorem check_antenna_positions_first :
    ∀ (l : List Antenna) (i1 i2 : String), check_antenna_positions l = some (i1, i2) →
      ∃ i j, ∃ hi : i < l.length, ∃ hj : j < l.length, i < j ∧
        has_same_position (l.get ⟨i, hi⟩) (l.get ⟨j, hj⟩) = true ∧
        i1 = (l.get ⟨i, hi⟩).id ∧ i2 = (l.get ⟨j, hj⟩).id ∧
        ∀ i3 j3 (hi3 : i3 < l.length) (hj3 : j3 < l.length), i3 < j3 →
          has_same_position (l.get ⟨i3, hi3⟩) (l.get ⟨j3, hj3⟩) = true →
          i < i3 ∨ (i = i3 ∧ j ≤ j3) := by
  intro l
  induction l with
  | nil => intro i1 i2 h; cases h
  | cons a t ih =>
    intro i1 i2 h
    simp only [check_antenna_positions] at h
    cases hf : t.find? (fun b => has_same_position a b) with
    | some b =>
      rw [hf] at h
      cases h
      obtain ⟨k, hk, hget, hb, hmin⟩ := find?_first_index _ t b hf
      have hk1 : k + 1 < (a :: t).length := by simp; omega
      refine ⟨0, k + 1, by simp, hk1, by omega, ?_, rfl, ?_, ?_⟩
      · show has_same_position a (t.get ⟨k, hk⟩) = true
        rw [hget]; exact hb
      · show b.id = (t.get ⟨k, hk⟩).id
        rw [hget]
      · intro i3 j3 hi3 hj3 hij hcol
        cases i3 with
        | zero =>
          refine Or.inr ⟨rfl, ?_⟩
          cases j3 with
          | zero => omega
          | succ m =>
            have hm : m < t.length := by simp at hj3; omega
            by_contra hlt
            have hmk : m < k := by omega
            have hfalse := hmin m hm hmk
            have hcol1 : has_same_position a (t.get ⟨m, hm⟩) = true := hcol
            rw [hcol1] at hfalse
            cases hfalse
        | succ i4 => exact Or.inl (by omega)
    | none =>
      rw [hf] at h
      obtain ⟨i, j, hi, hj, hij, hcol, h1, h2, hmin⟩ := ih i1 i2 h
      have hi1 : i + 1 < (a :: t).length := by simp; omega
      have hj1 : j + 1 < (a :: t).length := by simp; omega
      refine ⟨i + 1, j + 1, hi1, hj1, by omega, hcol, h1, h2, ?_⟩
      intro i3 j3 hi3 hj3 hij3 hcol3
      have hall := List.find?_eq_none.mp hf
      cases i3 with
      | zero =>
        cases j3 with
        | zero => omega
        | succ m =>
          have hm : m < t.length := by simp at hj3; omega
          have hcol4 : has_same_position a (t.get ⟨m, hm⟩) = true := hcol3
          exact absurd hcol4 (hall (t.get ⟨m, hm⟩) (t.get_mem m hm))
      | succ i4 =>
        cases j3 with
        | zero => omega
        | succ j4 =>
          have hi4 : i4 < t.length := by simp at hi3; omega
          have hj4 : j4 < t.length := by simp at hj3; omega
          have hcol4 : has_same_position (t.get ⟨i4, hi4⟩) (t.get ⟨j4, hj4⟩) = true := hcol3
          have h4 := hmin i4 j4 hi4 hj4 (by omega) hcol4
          omega

/-- The spec-side reading of the claim: `i1` and `i2` are the ids of the
lexicographically first (in the nested-loop scan order: smallest earlier
index, then smallest later index) pair of antennas sharing a position, with
the earlier-added antenna's id first. -/
def FirstCollidingPair (l : List Antenna) (i1 i2 : String) : Prop :=
  ∃ i j, ∃ hi : i < l.length, ∃ hj : j < l.length, i < j ∧
    (l.get ⟨i, hi⟩).x = (l.get ⟨j, hj⟩).x ∧ (l.get ⟨i, hi⟩).y = (l.get ⟨j, hj⟩).y ∧
    i1 = (l.get ⟨i, hi⟩).id ∧ i2 = (l.get ⟨j, hj⟩).id ∧
    ∀ i3 j3 (hi3 : i3 < l.length) (hj3 : j3 < l.length), i3 < j3 →
      (l.get ⟨i3, hi3⟩).x = (l.get ⟨j3, hj3⟩).x →
      (l.get ⟨i3, hi3⟩).y = (l.get ⟨j3, hj3⟩).y →
      i < i3 ∨ (i = i3 ∧ j ≤ j3)

/-- C8: `add_antenna` fails with `DuplicateId` iff the new antenna's id
matches some antenna already in the scene (building ids are never
consulted); when no antenna id matches, the antenna is appended and the
call fails with `SamePosition` iff two antennas of the grown collection
share a position — succeeding with exactly the appended scene otherwise —
and the reported pair is the first colliding pair in collection order,
the earlier-added antenna's id first. -/
theorem add_antenna_spec (s : Scene) (a : Antenna) :
    (add_antenna s a = .error (.duplicateId a.id) ↔ ∃ b ∈ s.antennas, b.id = a.id) ∧
    ((∀ b ∈ s.antennas, b.id ≠ a.id) →
      (add_antenna s a = .ok { s with antennas := s.antennas ++ [a] } ↔
        (s.antennas ++ [a]).Pairwise (fun p q => ¬(p.x = q.x ∧ p.y = q.y))) ∧
      ((∃ i1 i2, add_antenna s a = .error (.samePosition i1 i2)) ↔
        ¬ (s.antennas ++ [a]).Pairwise (fun p q => ¬(p.x = q.x ∧ p.y = q.y))) ∧
      (∀ i1 i2, add_antenna s a = .error (.samePosition i1 i2) →
        FirstCollidingPair (s.antennas ++ [a]) i1 i2)) := by
  have hpair : ∀ l : List Antenna,
      l.Pairwise (fun p q => has_same_position p q = false) ↔
      l.Pairwise (fun p q => ¬(p.x = q.x ∧ p.y = q.y)) := by
    intro l
    constructor
    · exact fun h => h.imp (fun hpq => by
        rw [← has_same_position_iff]; simp [hpq])
    · exact fun h => h.imp (fun hpq => by
        rw [← Bool.not_eq_true, has_same_position_iff]; exact hpq)
  have main : is_duplicate_antenna_id s a.id = false →
      add_antenna s a = (match check_antenna_positions (s.antennas ++ [a]) with
        | some p => Except.error (AntennaErr.samePosition p.1 p.2)
        | none => Except.ok { s with antennas := s.antennas ++ [a] }) := by
    intro hd
    rw [add_antenna, if_neg (by simp [hd])]
  constructor
  · by_cases hd : is_duplicate_antenna_id s a.id = true
    · rw [add_antenna, if_pos hd]
      unfold is_duplicate_antenna_id at hd
      rw [List.any_eq_true] at hd
      obtain ⟨b, hb, hbeq⟩ := hd
      exact ⟨fun _ => ⟨b, hb, by simpa using hbeq⟩, fun _ => rfl⟩
    · have hd2 : is_duplicate_antenna_id s a.id = false := by simpa using hd
      have hnd : ¬∃ b ∈ s.antennas, b.id = a.id := by
        unfold is_duplicate_antenna_id at hd2
        rw [List.any_eq_false] at hd2
        rintro ⟨b, hb, hbeq⟩
        exact hd2 b hb (by simpa using hbeq)
      have hres := main hd2
      refine ⟨fun he => ?_, fun hex => absurd hex hnd⟩
      exfalso
      rw [he] at hres
      cases hc : check_antenna_positions (s.antennas ++ [a]) with
      | some p => rw [hc] at hres; simp at hres
      | none => rw [hc] at hres; simp at hres
  · intro hids
    have hd2 : is_duplicate_antenna_id s a.id = false := by
      unfold is_duplicate_antenna_id
      rw [List.any_eq_false]
      intro b hb
      simpa using hids b hb
    have hres := main hd2
    cases hc : check_antenna_positions (s.antennas ++ [a]) with
    | none =>
      rw [hc] at hres
      have hp := (hpair _).mp ((check_antenna_positions_none_iff _).mp hc)
      refine ⟨⟨fun _ => hp, fun _ => hres⟩, ⟨?_, fun hnp => absurd hp hnp⟩, ?_⟩
      · rintro ⟨i1, i2, he⟩
        rw [hres] at he
        simp at he
      · intro i1 i2 he
        rw [hres] at he
        simp at he
    | some p =>
      rw [hc] at hres
      have hnp : ¬ (s.antennas ++ [a]).Pairwise (fun p q => ¬(p.x = q.x ∧ p.y = q.y)) := by
        intro hp
        have hn := (check_antenna_positions_none_iff _).mpr ((hpair _).mpr hp)
        rw [hc] at hn
        cases hn
      refine ⟨⟨fun hok => ?_, fun hp => absurd hp hnp⟩,
        ⟨fun _ => hnp, fun _ => ⟨p.1, p.2, hres⟩⟩, ?_⟩
      · rw [hok] at hres
        simp at hres
      · intro i1 i2 he
        rw [hres] at he
        simp only [Except.error.injEq, AntennaErr.samePosition.injEq] at he
        obtain ⟨e1, e2⟩ := he
        subst e1
        subst e2
        obtain ⟨i, j, hi, hj, hij, hcol, h1, h2, hmin⟩ :=
          check_antenna_positions_first _ p.1 p.2 hc
        rw [has_same_position_iff] at hcol
        refine ⟨i, j, hi, hj, hij, hcol.1, hcol.2, h1, h2, ?_⟩
        intro i3 j3 hi3 hj3 hij3 hx hy
        exact hmin i3 j3 hi3 hj3 hij3 ((has_same_position_iff _ _).mpr ⟨hx, hy⟩)

/-! ## C4 and C5: the stream protocol of `read_scene` -/

/-- C4: the scene reader fails when the first line is not exactly
`begin scene`; with the start marker (line 1) consumed, it reads line after
line, succeeding as soon as a line equals exactly `end scene`, failing with
the missing-terminator message when the stream ends first, and failing
immediately — with the same outcome whatever lines follow — when an
interior line is rejected by `process_line`, which is always invoked with
the 1-based number `n + 1` of the line it inspects. -/
theorem read_scene_protocol :
    (∀ (first : String) (rest : List String), first ≠ "begin scene" →
      read_scene (first :: rest) =
        .error ["error: first line must be exactly 'begin scene'"]) ∧
    (∀ rest : List String,
      read_scene ("begin scene" :: rest) = read_scene_loop rest 1 emptyScene) ∧
    (∀ (ls : List String) (n : Nat) (s : Scene),
      read_scene_loop ("end scene" :: ls) n s = .ok s) ∧
    (∀ (l : String) (ls ls2 : List String) (n : Nat) (s : Scene) (e : String),
      l ≠ "end scene" → process_line s l (n + 1) = .error e →
      read_scene_loop (l :: ls) n s = .error [e] ∧
      read_scene_loop (l :: ls2) n s = .error [e]) ∧
    (∀ (l : String) (ls : List String) (n : Nat) (s s1 : Scene),
      l ≠ "end scene" → process_line s l (n + 1) = .ok s1 →
      read_scene_loop (l :: ls) n s = read_scene_loop ls (n + 1) s1) ∧
    (∀ (n : Nat) (s : Scene),
      read_scene_loop [] n s = .error ["error: last line must be exactly 'end scene'"]) := by
  refine ⟨?_, ?_, ?_, ?_, ?_, ?_⟩
  · intro first rest h
    simp [read_scene, h]
  · intro rest
    simp [read_scene]
  · intro ls n s
    simp [read_scene_loop]
  · intro l ls ls2 n s e hl hp
    have hbeq : (l == "end scene") = false := by simpa using hl
    constructor <;> simp [read_scene_loop, hbeq, hp]
  · intro l ls n s s1 hl hp
    have hbeq : (l == "end scene") = false := by simpa using hl
    simp [read_scene_loop, hbeq, hp]
  · intro n s
    simp [read_scene_loop]

/-- C5, counterexample: the entirely empty stream makes scene reading fail
(there is no start marker), but the C code's failed first `fgets` returns
`false` without printing anything — the list of stderr messages is empty,
so this failure is silent. -/
theorem read_scene_empty_stream_silent :
    read_scene [] = .error [] := rfl

theorem read_scene_loop_failure_reports :
    ∀ (ls : List String) (n : Nat) (s : Scene) (msgs : List String),
      read_scene_loop ls n s = .error msgs → msgs ≠ [] := by
  intro ls
  induction ls with
  | nil =>
    intro n s msgs h
    simp only [read_scene_loop, Except.error.injEq] at h
    subst h
    simp
  | cons l t ih =>
    intro n s msgs h
    simp only [read_scene_loop] at h
    by_cases hl : (l == "end scene") = true
    · rw [if_pos hl] at h
      cases h
    · rw [if_neg hl] at h
      cases hp : process_line s l (n + 1) with
      | ok s1 =>
        rw [hp] at h
        exact ih (n + 1) s1 msgs h
      | error e =>
        rw [hp] at h
        simp only [Except.error.injEq] at h
        subst h
        simp

/-- C5 (amended): on every failing stream that contains at least one line, a
descriptive message is written to the error channel before the failure is
reported; only the entirely empty stream fails silently, because the first
`fgets` failure returns `false` without printing. -/
theorem read_scene_failure_reports (lines msgs : List String)
    (hne : lines ≠ []) (h : read_scene lines = .error msgs) : msgs ≠ [] := by
  cases lines with
  | nil => exact absurd rfl hne
  | cons first rest =>
    simp only [read_scene] at h
    by_cases hf : (first == "begin scene") = true
    · rw [if_pos hf] at h
      exact read_scene_loop_failure_reports rest 1 emptyScene msgs h
    · rw [if_neg hf] at h
      simp only [Except.error.injEq] at h
      subst h
      simp

/-- Witness for C5's amended claim: the one-line stream `["x"]` fails and
the missing-start-marker message is on the error channel. -/
theorem read_scene_failure_reports_witness :
    (["error: first line must be exactly 'begin scene'"] : List String) ≠ [] :=
  read_scene_failure_reports ["x"] ["error: first line must be exactly 'begin scene'"]
    (by simp) (by rfl)

/-! ## C6: the bounding box -/

theorem foldl_bb_components {β : Type} (g1 g2 g3 g4 : β → Int) :
    ∀ (l : List β) (m : BBox),
      l.foldl (fun m b => bb_update m (g1 b) (g2 b) (g3 b) (g4 b)) m =
        ⟨l.foldl (fun acc b => if g1 b < acc then g1 b else acc) m.min_x,
         l.foldl (fun acc b => if g2 b > acc then g2 b else acc) m.max_x,
         l.foldl (fun acc b => if g3 b < acc then g3 b else acc) m.min_y,
         l.foldl (fun acc b => if g4 b > acc then g4 b else acc) m.max_y⟩ := by
  intro l
  induction l with
  | nil => intro m; rfl
  | cons b t ih =>
    intro m
    simp only [List.foldl_cons]
    rw [ih]
    rfl

theorem foldl_min_spec : ∀ (l : List Int) (init : Int),
    (l.foldl (fun acc e => if e < acc then e else acc) init = init ∨
     l.foldl (fun acc e => if e < acc then e else acc) init ∈ l) ∧
    l.foldl (fun acc e => if e < acc then e else acc) init ≤ init ∧
    ∀ e ∈ l, l.foldl (fun acc e => if e < acc then e else acc) init ≤ e := by
  intro l
  induction l with
  | nil => intro init; exact ⟨Or.inl rfl, le_refl _, by simp⟩
  | cons x t ih =>
    intro init
    simp only [List.foldl_cons]
    obtain ⟨hmem, hle, hall⟩ := ih (if x < init then x else init)
    have hle1 : (if x < init then x else init) ≤ init := by split <;> omega
    have hlex : (if x < init then x else init) ≤ x := by split <;> omega
    refine ⟨?_, le_trans hle hle1, ?_⟩
    · rcases hmem with h | h
      · rw [h]
        split
        · exact Or.inr (by simp)
        · exact Or.inl rfl
      · exact Or.inr (List.mem_cons_of_mem x h)
    · intro e he
      rcases List.mem_cons.mp he with rfl | he2
      · exact le_trans hle hlex
      · exact hall e he2

theorem foldl_max_spec : ∀ (l : List Int) (init : Int),
    (l.foldl (fun acc e => if e > acc then e else acc) init = init ∨
     l.foldl (fun acc e => if e > acc then e else acc) init ∈ l) ∧
    init ≤ l.foldl (fun acc e => if e > acc then e else acc) init ∧
    ∀ e ∈ l, e ≤ l.foldl (fun acc e => if e > acc then e else acc) init := by
  intro l
  induction l with
  | nil => intro init; exact ⟨Or.inl rfl, le_refl _, by simp⟩
  | cons x t ih =>
    intro init
    simp only [List.foldl_cons]
    obtain ⟨hmem, hle, hall⟩ := ih (if x > init then x else init)
    have hle1 : init ≤ (if x > init then x else init) := by split <;> omega
    have hlex : x ≤ (if x > init then x else init) := by split <;> omega
    refine ⟨?_, le_trans hle1 hle, ?_⟩
    · rcases hmem with h | h
      · rw [h]
        split
        · exact Or.inr (by simp)
        · exact Or.inl rfl
      · exact Or.inr (List.mem_cons_of_mem x h)
    · intro e he
      rcases List.mem_cons.mp he with rfl | he2
      · exact le_trans hlex hle
      · exact hall e he2

theorem foldl_min_reaches (l : List Int) (init : Int) (hne : l ≠ [])
    (hbound : ∀ e ∈ l, e ≤ init) :
    l.foldl (fun acc e => if e < acc then e else acc) init ∈ l ∧
    ∀ e ∈ l, l.foldl (fun acc e => if e < acc then e else acc) init ≤ e := by
  obtain ⟨hmem, hle, hall⟩ := foldl_min_spec l init
  rcases hmem with h | h
  · obtain ⟨e0, he0⟩ := List.exists_mem_of_ne_nil l hne
    have h1 := hall e0 he0
    have h2 := hbound e0 he0
    have heq : l.foldl (fun acc e => if e < acc then e else acc) init = e0 := by omega
    exact ⟨heq ▸ he0, hall⟩
  · exact ⟨h, hall⟩

theorem foldl_max_reaches (l : List Int) (init : Int) (hne : l ≠ [])
    (hbound : ∀ e ∈ l, init ≤ e) :
    l.foldl (fun acc e => if e > acc then e else acc) init ∈ l ∧
    ∀ e ∈ l, e ≤ l.foldl (fun acc e => if e > acc then e else acc) init := by
  obtain ⟨hmem, hle, hall⟩ := foldl_max_spec l init
  rcases hmem with h | h
  · obtain ⟨e0, he0⟩ := List.exists_mem_of_ne_nil l hne
    have h1 := hall e0 he0
    have h2 := hbound e0 he0
    have heq : l.foldl (fun acc e => if e > acc then e else acc) init = e0 := by omega
    exact ⟨heq ▸ he0, hall⟩
  · exact ⟨h, hall⟩

theorem compute_bounding_box_eq (s : Scene) :
    compute_bounding_box s =
      ⟨(xlefts s).foldl (fun acc e => if e < acc then e else acc) INT_MAX,
       (xrights s).foldl (fun acc e => if e > acc then e else acc) INT_MIN,
       (ylows s).foldl (fun acc e => if e < acc then e else acc) INT_MAX,
       (yhighs s).foldl (fun acc e => if e > acc then e else acc) INT_MIN⟩ := by
  unfold compute_bounding_box xlefts xrights ylows yhighs
  rw [foldl_bb_components, foldl_bb_components]
  simp only [List.foldl_append, List.foldl_map]

/-- C6: for a scene with at least one building or antenna, whose extents all
fit in the 32-bit `int` range (as every value the C program stores does),
`compute_bounding_box` returns exactly the minimum and maximum x and y over
all buildings' `[x-w, x+w] × [y-h, y+h]` extents and all antennas'
`[x-r, x+r] × [y-r, y+r]` extents; a scene with zero buildings and zero
antennas prints `undefined (empty scene)` instead of a numeric range, and
the scene holding only `building b1 0 0 1 1` prints
`bounding box [-1, 1] x [-1, 1]`. -/
theorem bounding_box_spec :
    (∀ s : Scene, xlefts s ≠ [] →
      (∀ e ∈ xlefts s, e ≤ INT_MAX) → (∀ e ∈ xrights s, INT_MIN ≤ e) →
      (∀ e ∈ ylows s, e ≤ INT_MAX) → (∀ e ∈ yhighs s, INT_MIN ≤ e) →
      ((compute_bounding_box s).min_x ∈ xlefts s ∧
        ∀ e ∈ xlefts s, (compute_bounding_box s).min_x ≤ e) ∧
      ((compute_bounding_box s).max_x ∈ xrights s ∧
        ∀ e ∈ xrights s, e ≤ (compute_bounding_box s).max_x) ∧
      ((compute_bounding_box s).min_y ∈ ylows s ∧
        ∀ e ∈ ylows s, (compute_bounding_box s).min_y ≤ e) ∧
      ((compute_bounding_box s).max_y ∈ yhighs s ∧
        ∀ e ∈ yhighs s, e ≤ (compute_bounding_box s).max_y)) ∧
    (∀ s : Scene, s.buildings = [] → s.antennas = [] →
      print_bounding_box s = "undefined (empty scene)") ∧
    print_bounding_box ⟨[⟨"b1", 0, 0, 1, 1⟩], []⟩ = "bounding box [-1, 1] x [-1, 1]" := by
  refine ⟨?_, ?_, by rfl⟩
  · intro s hne hx1 hx2 hy1 hy2
    have hlb : (xlefts s).length = s.buildings.length + s.antennas.length := by
      simp [xlefts]
    have hner : xrights s ≠ [] := by
      have : (xrights s).length = s.buildings.length + s.antennas.length := by
        simp [xrights]
      intro h
      rw [h] at this
      have h0 : (xlefts s).length ≠ 0 := by
        simpa using fun hh => hne (List.length_eq_zero.mp hh)
      rw [hlb] at h0
      simp at this
      omega
    have hnel : ylows s ≠ [] := by
      have : (ylows s).length = s.buildings.length + s.antennas.length := by
        simp [ylows]
      intro h
      rw [h] at this
      have h0 : (xlefts s).length ≠ 0 := by
        simpa using fun hh => hne (List.length_eq_zero.mp hh)
      rw [hlb] at h0
      simp at this
      omega
    have hneh : yhighs s ≠ [] := by
      have : (yhighs s).length = s.buildings.length + s.antennas.length := by
        simp [yhighs]
      intro h
      rw [h] at this
      have h0 : (xlefts s).length ≠ 0 := by
        simpa using fun hh => hne (List.length_eq_zero.mp hh)
      rw [hlb] at h0
      simp at this
      omega
    rw [compute_bounding_box_eq]
    exact ⟨foldl_min_reaches _ _ hne hx1, foldl_max_reaches _ _ hner hx2,
      foldl_min_reaches _ _ hnel hy1, foldl_max_reaches _ _ hneh hy2⟩
  · intro s hb ha
    simp [print_bounding_box, hb, ha]

/-! ## C7: the sorted description -/

theorem strLe_total : ∀ a b : List Char, strLe a b = true ∨ strLe b a = true := by
  intro a
  induction a with
  | nil => intro b; exact Or.inl rfl
  | cons c t ih =>
    intro b
    cases b with
    | nil => exact Or.inr rfl
    | cons d u =>
      simp only [strLe]
      rcases Nat.lt_trichotomy c.toNat d.toNat with h | h | h
      · left; rw [if_pos h]
      · rw [if_neg (by omega), if_neg (by omega), if_neg (by omega), if_neg (by omega)]
        exact ih u
      · right; rw [if_pos h]

theorem strLe_trans : ∀ a b c : List Char,
    strLe a b = true → strLe b c = true → strLe a c = true := by
  intro a
  induction a with
  | nil => intro b c _ _; rfl
  | cons x t ih =>
    intro b c hab hbc
    cases b with
    | nil => simp [strLe] at hab
    | cons y u =>
      cases c with
      | nil => simp [strLe] at hbc
      | cons z v =>
        simp only [strLe] at hab hbc ⊢
        split_ifs at hab hbc ⊢
        all_goals try rfl
        all_goals try exact ih u v hab hbc
        all_goals omega

instance : IsTotal String idLe := ⟨fun a b => strLe_total a.data b.data⟩

instance : IsTrans String idLe := ⟨fun a b c => strLe_trans a.data b.data c.data⟩

theorem filterMap_find?_map_key {α : Type} (key : α → String) :
    ∀ (xs : List α), (xs.map key).Nodup →
      List.filterMap (fun i => xs.find? (fun x => key x == i)) (xs.map key) = xs := by
  intro xs
  induction xs with
  | nil => intro _; rfl
  | cons x t ih =>
    intro h
    simp only [List.map_cons, List.nodup_cons] at h
    obtain ⟨hx, ht⟩ := h
    simp only [List.map_cons, List.filterMap_cons]
    rw [List.find?_cons_of_pos _ (by simp)]
    have hfg : ∀ i ∈ t.map key,
        ((x :: t).find? (fun z => key z == i)) = t.find? (fun z => key z == i) := by
      intro i hi
      apply List.find?_cons_of_neg
      simp only [beq_iff_eq]
      intro hxi
      exact hx (by rw [hxi]; exact hi)
    rw [List.filterMap_congr hfg, ih ht]

theorem sortByKey_spec {α : Type} (key : α → String) (xs : List α)
    (h : (xs.map key).Nodup) :
    List.Perm (sortByKey key xs) xs ∧
    (sortByKey key xs).Pairwise (fun a b => idLe (key a) (key b)) := by
  constructor
  · have hperm := (List.perm_insertionSort idLe (xs.map key)).filterMap
      (fun i => xs.find? (fun x => key x == i))
    rw [filterMap_find?_map_key key xs h] at hperm
    exact hperm
  · have hsort : List.Pairwise idLe ((xs.map key).insertionSort idLe) :=
      List.sorted_insertionSort idLe (xs.map key)
    refine List.Pairwise.filterMap _ ?_ hsort
    intro i i' hii b hb b' hb'
    have h1 : key b = i := by
      have := List.find?_some (Option.mem_def.mp hb)
      simpa using this
    have h2 : key b' = i' := by
      have := List.find?_some (Option.mem_def.mp hb')
      simpa using this
    rw [h1, h2]
    exact hii

/-- C7: for a validated scene (whose building ids and antenna ids are each
pairwise distinct), the description query prints the summary line, then the
buildings — a permutation of the stored buildings sorted ascending by
identifier under the byte-wise order of `compare_ids` — then the antennas,
likewise sorted; in particular the scene holding buildings `zeta` and
`alpha` lists `alpha` before `zeta`. -/
theorem print_description_spec :
    (∀ s : Scene,
      (s.buildings.map Building.id).Nodup → (s.antennas.map Antenna.id).Nodup →
      ∃ bs1 as1,
        print_description s =
          print_summary s :: (bs1.map print_building ++ as1.map print_antenna) ∧
        List.Perm bs1 s.buildings ∧ bs1.Pairwise (fun a b => idLe a.id b.id) ∧
        List.Perm as1 s.antennas ∧ as1.Pairwise (fun a b => idLe a.id b.id)) ∧
    print_description ⟨[⟨"zeta", 0, 0, 1, 1⟩, ⟨"alpha", 5, 5, 1, 1⟩], []⟩ =
      ["A scene with 2 buildings",
       "  building alpha at 5 5 with dimensions 1 1",
       "  building zeta at 0 0 with dimensions 1 1"] := by
  constructor
  · intro s hb ha
    obtain ⟨hbp, hbs⟩ := sortByKey_spec Building.id s.buildings hb
    obtain ⟨hap, has2⟩ := sortByKey_spec Antenna.id s.antennas ha
    exact ⟨sortByKey Building.id s.buildings, sortByKey Antenna.id s.antennas,
      rfl, hbp, hbs, hap, has2⟩
  · rfl

/-- C9: `buildings_overlap` is symmetric. -/
theorem buildings_overlap_symm (b1 b2 : Building) :
    buildings_overlap b1 b2 = buildings_overlap b2 b1 := by
  unfold buildings_overlap
  rw [Bool.eq_iff_iff]
  simp only [Bool.not_eq_true', Bool.or_eq_false_iff, decide_eq_false_iff_not]
  constructor <;> intro h <;> omega

end Kover
